import Mathlib

/-!
Verification of the prime-sieve ROM generator (`tools/gen_prime_rom.py`).

The Python source is shallowly embedded: byte strings become `List Nat`,
Python integers become `Int` (with explicit `% 2^w` where the source masks
with `& 0xFFFF` / `& 0xFF`), `bytearray` slice assignment becomes `setRange`,
and dictionary label tables become functions `String → Option Nat`.
-/

namespace GenPrimeRom

/-- `word(val)`: pack a 16-bit word big-endian; the source masks with
`val & 0xFFFF`, which for a Python int equals `val mod 2^16`. -/
def word (val : Int) : List Nat :=
  let v := (val % 65536).toNat
  [v / 256, v % 256]

/-- `long(val)`: pack a 32-bit long big-endian; the source masks with
`val & 0xFFFFFFFF`. -/
def long (val : Int) : List Nat :=
  let v := (val % 4294967296).toNat
  [v / 16777216 % 256, v / 65536 % 256, v / 256 % 256, v % 256]

/-- ASCII bytes of a Python byte-string literal. -/
def ascii (s : String) : List Nat := s.toList.map Char.toNat

-- Fixed opcode encodings from `generate_rom` (lines 68-106 of the source).

def LEA_FF0000_A7 : List Nat := [0x4F, 0xF9, 0x00, 0xFF, 0x00, 0x00]

def LEA_FF0000_A0 : List Nat := [0x41, 0xF9, 0x00, 0xFF, 0x00, 0x00]

def LEA_FF0300_A1 : List Nat := [0x43, 0xF9, 0x00, 0xFF, 0x03, 0x00]

def MOVE_W_IMM_D0 (val : Int) : List Nat := [0x30, 0x3C] ++ word val

def MOVE_W_IMM_D1 (val : Int) : List Nat := [0x32, 0x3C] ++ word val

def CLR_B_A0_INC : List Nat := [0x42, 0x18]

def CLR_W_D1 : List Nat := [0x42, 0x41]

def MOVE_B_IMM_A0 (val : Nat) : List Nat := [0x10, 0xBC, 0x00, val]

def MOVE_B_IMM_A0_OFF (val : Nat) (off : Int) : List Nat :=
  [0x11, 0x7C, 0x00, val] ++ word off

def TST_B_A0_D0 : List Nat := [0x4A, 0x30, 0x00, 0x00]

def MOVE_B_1_A0_D1 : List Nat := [0x11, 0xBC, 0x00, 0x01, 0x10, 0x00]

def CMP_W_IMM_D0 (val : Int) : List Nat := [0xB0, 0x7C] ++ word val

def CMP_W_IMM_D1 (val : Int) : List Nat := [0xB2, 0x7C] ++ word val

/-- `bne.s`: the source stores `disp & 0xFF` with no range check. -/
def BNE_8 (disp : Int) : List Nat := [0x66, (disp % 256).toNat]

/-- `bgt.s`: the source stores `disp & 0xFF` with no range check. -/
def BGT_8 (disp : Int) : List Nat := [0x6E, (disp % 256).toNat]

/-- `bge.s`: the source stores `disp & 0xFF` with no range check. -/
def BGE_8 (disp : Int) : List Nat := [0x6C, (disp % 256).toNat]

/-- `beq.s`: the source stores `disp & 0xFF` with no range check. -/
def BEQ_8 (disp : Int) : List Nat := [0x67, (disp % 256).toNat]

/-- `bra.s`: the source stores `disp & 0xFF` with no range check. -/
def BRA_8 (disp : Int) : List Nat := [0x60, (disp % 256).toNat]

def BRA_16 (disp : Int) : List Nat := [0x60, 0x00] ++ word disp

def ADDQ_W_1_D0 : List Nat := [0x52, 0x40]

def ADDQ_W_1_D1 : List Nat := [0x52, 0x41]

def ADD_W_D0_D1 : List Nat := [0xD2, 0x40]

def DBRA_D0 (disp : Int) : List Nat := [0x51, 0xC8] ++ word disp

def MOVE_W_D0_A1_INC : List Nat := [0x32, 0xC0]

def MOVE_W_D1_ABS (addr : Int) : List Nat := [0x33, 0xC1] ++ long addr

def MOVE_W_IMM_ABS (val : Int) (addr : Int) : List Nat :=
  [0x33, 0xFC] ++ word val ++ long addr

def NOP : List Nat := [0x4E, 0x71]

/-- The code buffer of the fixed program together with every byte offset the
source records in a local variable during construction (`clear_loop`,
`sieve_loop`, the patch-site indices, the backward-branch anchors, `hang`). -/
structure Build where
  program : List Nat
  clear_loop : Nat
  sieve_loop : Nat
  bgt_collect : Nat
  bne_next1 : Nat
  mark_multiples : Nat
  bge_next : Nat
  bra_mark_anchor : Nat
  next_addr : Nat
  bra_sieve_anchor : Nat
  collect : Nat
  collect_loop : Nat
  beq_done : Nat
  bge_done : Nat
  bne_not_prime : Nat
  not_prime : Nat
  bra_collect_anchor : Nat
  done_addr : Nat
  hang : Nat

/-- Mirror of the program-construction part of `generate_rom`
(source lines 111-211): emit the fixed instruction sequence, recording
`len(program)` checkpoints, patching the forward-branch placeholder bytes
in place with `(target - site - 1) & 0xFF`, and computing backward branch
displacements as `target - len(program) - 2`.  The `bra_*_anchor` fields
record `len(program)` immediately before each backward `bra.s` is emitted
(the source computes `disp` from exactly that length). -/
def buildProgram : Build :=
  let program := LEA_FF0000_A7
  let program := program ++ LEA_FF0000_A0
  let program := program ++ MOVE_W_IMM_D0 599
  let clear_loop := program.length
  let program := program ++ CLR_B_A0_INC
  let program := program ++ DBRA_D0 (-4)
  let program := program ++ LEA_FF0000_A0
  let program := program ++ MOVE_B_IMM_A0 1
  let program := program ++ MOVE_B_IMM_A0_OFF 1 1
  let program := program ++ MOVE_W_IMM_D0 2
  let sieve_loop := program.length
  let program := program ++ CMP_W_IMM_D0 25
  let program := program ++ BGT_8 0
  let bgt_collect := program.length - 1
  let program := program ++ LEA_FF0000_A0
  let program := program ++ TST_B_A0_D0
  let program := program ++ BNE_8 0
  let bne_next1 := program.length - 1
  let program := program ++ [0x32, 0x00]
  let program := program ++ ADD_W_D0_D1
  let mark_multiples := program.length
  let program := program ++ CMP_W_IMM_D1 600
  let program := program ++ BGE_8 0
  let bge_next := program.length - 1
  let program := program ++ MOVE_B_1_A0_D1
  let program := program ++ ADD_W_D0_D1
  let bra_mark_anchor := program.length
  let disp1 : Int := (mark_multiples : Int) - program.length - 2
  let program := program ++ BRA_8 disp1
  let next_addr := program.length
  let program := program.set bne_next1 ((((next_addr : Int) - bne_next1 - 1) % 256).toNat)
  let program := program.set bge_next ((((next_addr : Int) - bge_next - 1) % 256).toNat)
  let program := program ++ ADDQ_W_1_D0
  let bra_sieve_anchor := program.length
  let disp2 : Int := (sieve_loop : Int) - program.length - 2
  let program := program ++ BRA_8 disp2
  let collect := program.length
  let program := program.set bgt_collect ((((collect : Int) - bgt_collect - 1) % 256).toNat)
  let program := program ++ LEA_FF0000_A0
  let program := program ++ LEA_FF0300_A1
  let program := program ++ CLR_W_D1
  let program := program ++ MOVE_W_IMM_D0 2
  let collect_loop := program.length
  let program := program ++ CMP_W_IMM_D1 100
  let program := program ++ BEQ_8 0
  let beq_done := program.length - 1
  let program := program ++ CMP_W_IMM_D0 600
  let program := program ++ BGE_8 0
  let bge_done := program.length - 1
  let program := program ++ TST_B_A0_D0
  let program := program ++ BNE_8 0
  let bne_not_prime := program.length - 1
  let program := program ++ MOVE_W_D0_A1_INC
  let program := program ++ ADDQ_W_1_D1
  let not_prime := program.length
  let program := program.set bne_not_prime ((((not_prime : Int) - bne_not_prime - 1) % 256).toNat)
  let program := program ++ ADDQ_W_1_D0
  let bra_collect_anchor := program.length
  let disp3 : Int := (collect_loop : Int) - program.length - 2
  let program := program ++ BRA_8 disp3
  let done_addr := program.length
  let program := program.set beq_done ((((done_addr : Int) - beq_done - 1) % 256).toNat)
  let program := program.set bge_done ((((done_addr : Int) - bge_done - 1) % 256).toNat)
  let program := program ++ MOVE_W_D1_ABS 0x00FF0500
  let program := program ++ MOVE_W_IMM_ABS 0xDEAD 0x00FF0502
  let hang := program.length
  let program := program ++ BRA_8 (-2)
  { program := program
    clear_loop := clear_loop
    sieve_loop := sieve_loop
    bgt_collect := bgt_collect
    bne_next1 := bne_next1
    mark_multiples := mark_multiples
    bge_next := bge_next
    bra_mark_anchor := bra_mark_anchor
    next_addr := next_addr
    bra_sieve_anchor := bra_sieve_anchor
    collect := collect
    collect_loop := collect_loop
    beq_done := beq_done
    bge_done := bge_done
    bne_not_prime := bne_not_prime
    not_prime := not_prime
    bra_collect_anchor := bra_collect_anchor
    done_addr := done_addr
    hang := hang }

/-- Python `bytearray` slice assignment `l[i:i+len(v)] = v`, written
elementwise: every slice assignment in the source replaces exactly
`len(v)` bytes starting at `i`, so it overwrites positions
`i, i+1, ...` with the bytes of `v` and preserves the buffer length. -/
def setRange (l : List Nat) (i : Nat) (v : List Nat) : List Nat :=
  match v with
  | [] => l
  | b :: rest => setRange (l.set i b) (i + 1) rest

/-- The checksum word-sum loop (source lines 282-284) with its running
accumulator: add the big-endian 16-bit word at every even offset. -/
def wordSumFrom (acc : Nat) : List Nat → Nat
  | b1 :: b2 :: rest => wordSumFrom (acc + ((b1 <<< 8) ||| b2)) rest
  | _ => acc

/-- The checksum word-sum starting from `checksum = 0`.  The source only
runs this loop on a region of even length. -/
def wordSum (l : List Nat) : Nat := wordSumFrom 0 l

/-- Mirror of the ROM-assembly part of `generate_rom` (source lines 213-288):
512-byte vector-table/header prefix, vectors, header fields, code region,
zero padding (the source while-loop appends zeros until the length is at
least 512 and a multiple of 512, i.e. up to `512 * max 1 ⌈len/512⌉`), and
finally the checksum over bytes 0x200.. written into slot 0x18E. -/
def generate_rom : List Nat :=
  let b := buildProgram
  let program := b.program
  let rom := List.replicate 0x200 0
  let rom := setRange rom 0x00 (long 0x00FFFFFE)
  let rom := setRange rom 0x04 (long 0x00000200)
  let hang_addr := 0x200 + b.hang
  let rom := (List.range 62).foldl (fun r k => setRange r (8 + 4 * k) (long hang_addr)) rom
  let header := List.replicate 256 0
  let header := setRange header 0x00 (ascii ("SEGA MEGA DRIVE "))
  let header := setRange header 0x10 (ascii ("(C)GXTEST 2026  "))
  let header := setRange header 0x20 ((ascii ("PRIME SIEVE TEST ROM                            ")).take 48)
  let header := setRange header 0x50 ((ascii ("PRIME SIEVE TEST ROM                            ")).take 48)
  let header := setRange header 0x80 (ascii ("GM 00000000-00"))
  let header := setRange header 0x8E (word 0)
  let header := setRange header 0x90 (ascii ("J               "))
  let rom_end := 0x200 + program.length
  let header := setRange header 0xA0 (long 0x00000000)
  let header := setRange header 0xA4 (long ((rom_end : Int) - 1))
  let header := setRange header 0xA8 (long 0x00FF0000)
  let header := setRange header 0xAC (long 0x00FFFFFF)
  let header := setRange header 0xB0 (ascii ("            "))
  let header := setRange header 0xBC (ascii ("            "))
  let header := setRange header 0xF0 (ascii ("JUE"))
  let rom := setRange rom 0x100 header
  let rom := rom ++ program
  let target := 512 * max 1 ((rom.length + 511) / 512)
  let rom := rom ++ List.replicate (target - rom.length) 0
  let checksum := wordSum (rom.drop 0x200)
  let checksum := checksum &&& 0xFFFF
  let rom := setRange rom 0x18E (word checksum)
  rom

/-- One element of the instruction stream accepted by `assemble_68k`:
a label marker (a string ending in a colon), raw machine-code bytes, a
`(opcode_bytes, size)` tuple, or a `(callable, size, args...)` tuple whose
callable is invoked in the second pass as `opcode(pc, labels, *args)`
(extra arguments are closed over here; a Python exception such as a
`KeyError` from an unbound label is modelled as `none`). -/
inductive Inst where
  | label (name : String)
  | raw (bs : List Nat)
  | fixedTup (bs : List Nat) (size : Nat)
  | deferredTup (f : Nat → (String → Option Nat) → Option (List Nat)) (size : Nat)

/-- One step of the first pass of `assemble_68k` (source lines 22-29):
bind a label to the current pc, or advance pc by the byte length of raw
bytes or by the declared size of a tuple.  Binding uses Python dict
assignment semantics: a later binding of the same name overwrites. -/
def pass1Step (st : (String → Option Nat) × Nat) (i : Inst) :
    (String → Option Nat) × Nat :=
  match i with
  | .label n => (fun s => if s = n then some st.2 else st.1 s, st.2)
  | .raw bs => (st.1, st.2 + bs.length)
  | .fixedTup _ size => (st.1, st.2 + size)
  | .deferredTup _ size => (st.1, st.2 + size)

/-- The first pass of `assemble_68k`: the label table and final pc. -/
def pass1 (instructions : List Inst) : (String → Option Nat) × Nat :=
  instructions.foldl pass1Step (fun _ => none, 0)

/-- One step of the second pass of `assemble_68k` (source lines 32-47):
skip labels, append raw bytes (advancing pc by their length), append a
tuple's bytes or its callable's result, advancing pc by the declared size. -/
def pass2Step (labels : String → Option Nat) (st : Option (List Nat × Nat))
    (i : Inst) : Option (List Nat × Nat) :=
  match st with
  | none => none
  | some cp =>
    match i with
    | .label _ => some cp
    | .raw bs => some (cp.1 ++ bs, cp.2 + bs.length)
    | .fixedTup bs size => some (cp.1 ++ bs, cp.2 + size)
    | .deferredTup f size =>
      match f cp.2 labels with
      | none => none
      | some result => some (cp.1 ++ result, cp.2 + size)

/-- The second pass of `assemble_68k`: the code buffer and final pc. -/
def pass2 (instructions : List Inst) (labels : String → Option Nat) :
    Option (List Nat × Nat) :=
  instructions.foldl (pass2Step labels) (some ([], 0))

/-- `assemble_68k(instructions)` (source lines 16-49). -/
def assemble_68k (instructions : List Inst) : Option (List Nat) :=
  (pass2 instructions (pass1 instructions).1).map Prod.fst

/-- `branch_displacement(pc, labels, target)` (source lines 59-62):
`word(labels[target] - (pc + 2))`; a missing label is a `KeyError`,
modelled as `none`. -/
def branch_displacement (pc : Nat) (labels : String → Option Nat)
    (target : String) : Option (List Nat) :=
  (labels target).map (fun t => word ((t : Int) - ((pc : Int) + 2)))

/-- The number of bytes the first pass of `assemble_68k` charges for an
instruction-stream element: 0 for a label, the byte length for raw bytes,
the declared size for a tuple. -/
def declaredSize : Inst → Nat
  | .label _ => 0
  | .raw _bs => _bs.length
  | .fixedTup _ size => size
  | .deferredTup _ size => size

/-- A stream element's declared size agrees with the byte length its
encoding actually produces under the label table `labels` used by the run
(for a deferred callable: at every pc it succeeds on `labels` and yields
its declared size; `branch_displacement` does exactly that whenever its
target is bound in `labels`, as the second pass relies on). -/
def sizesOk (labels : String → Option Nat) : Inst → Prop
  | .label _ => True
  | .raw _ => True
  | .fixedTup bs size => bs.length = size
  | .deferredTup f size =>
      ∀ pc, ∃ bs, f pc labels = some bs ∧ bs.length = size

/-- The anchor offset (offset of the branch opcode byte) and target offset
of every 8-bit relative branch emitted by `generate_rom`, in source order:
the patched forward branches record their displacement byte at index
`anchor + 1 = site`, the backward branches were emitted at the recorded
anchors. -/
def branchSites : List (Nat × Nat) :=
  let b := buildProgram
  [ (b.bgt_collect - 1, b.collect),
    (b.bne_next1 - 1, b.next_addr),
    (b.bge_next - 1, b.next_addr),
    (b.bra_mark_anchor, b.mark_multiples),
    (b.bra_sieve_anchor, b.sieve_loop),
    (b.beq_done - 1, b.done_addr),
    (b.bge_done - 1, b.done_addr),
    (b.bne_not_prime - 1, b.not_prime),
    (b.bra_collect_anchor, b.collect_loop),
    (b.hang, b.hang) ]

/-- The list of 100 expected primes hard-coded in `generate_cpp_header`
(source lines 294-300). -/
def primes : List Nat :=
  [2, 3, 5, 7, 11, 13, 17, 19, 23, 29, 31, 37, 41, 43, 47, 53, 59, 61, 67, 71,
   73, 79, 83, 89, 97, 101, 103, 107, 109, 113, 127, 131, 137, 139, 149, 151,
   157, 163, 167, 173, 179, 181, 191, 193, 197, 199, 211, 223, 227, 229, 233,
   239, 241, 251, 257, 263, 269, 271, 277, 281, 283, 293, 307, 311, 313, 317,
   331, 337, 347, 349, 353, 359, 367, 373, 379, 383, 389, 397, 401, 409, 419,
   421, 431, 433, 439, 443, 449, 457, 461, 463, 467, 479, 487, 491, 499, 503,
   509, 521, 523, 541]

/-- A stream that binds the label `L` twice (at offsets 0 and 2). -/
def dupLabelStream : List Inst :=
  [Inst.label ("L"), Inst.raw NOP, Inst.label ("L")]

/-- A stream whose first tuple declares size 2 but encodes 4 bytes, and
whose second tuple declares size 2 but encodes 0 bytes: the mismatches
cancel before the label `L`. -/
def cancelingStream : List Inst :=
  [Inst.fixedTup [1, 2, 3, 4] 2, Inst.fixedTup [] 2, Inst.label ("L")]

/-- A small size-accurate stream with a forward reference used to
instantiate the assembler correctness theorem: the deferred tuple carries
the source's `branch_displacement` aimed at the label `fwd`, which is
bound only later (at offset 4). -/
def witStream : List Inst :=
  [Inst.raw NOP,
   Inst.deferredTup (fun pc l => branch_displacement pc l ("fwd")) 2,
   Inst.label ("fwd"),
   Inst.raw NOP]

/-- The 1024 bytes of the produced image, as one literal (checked below
to equal `generate_rom`; the image claims compute over this literal). -/
def romBytes : List Nat :=
  [0, 255, 255, 254, 0, 0, 2, 0, 0, 0, 2, 142, 0, 0, 2, 142, 0, 0, 2, 142, 0, 0, 2, 142,
   0, 0, 2, 142, 0, 0, 2, 142, 0, 0, 2, 142, 0, 0, 2, 142, 0, 0, 2, 142, 0, 0, 2, 142,
   0, 0, 2, 142, 0, 0, 2, 142, 0, 0, 2, 142, 0, 0, 2, 142, 0, 0, 2, 142, 0, 0, 2, 142,
   0, 0, 2, 142, 0, 0, 2, 142, 0, 0, 2, 142, 0, 0, 2, 142, 0, 0, 2, 142, 0, 0, 2, 142,
   0, 0, 2, 142, 0, 0, 2, 142, 0, 0, 2, 142, 0, 0, 2, 142, 0, 0, 2, 142, 0, 0, 2, 142,
   0, 0, 2, 142, 0, 0, 2, 142, 0, 0, 2, 142, 0, 0, 2, 142, 0, 0, 2, 142, 0, 0, 2, 142,
   0, 0, 2, 142, 0, 0, 2, 142, 0, 0, 2, 142, 0, 0, 2, 142, 0, 0, 2, 142, 0, 0, 2, 142,
   0, 0, 2, 142, 0, 0, 2, 142, 0, 0, 2, 142, 0, 0, 2, 142, 0, 0, 2, 142, 0, 0, 2, 142,
   0, 0, 2, 142, 0, 0, 2, 142, 0, 0, 2, 142, 0, 0, 2, 142, 0, 0, 2, 142, 0, 0, 2, 142,
   0, 0, 2, 142, 0, 0, 2, 142, 0, 0, 2, 142, 0, 0, 2, 142, 0, 0, 2, 142, 0, 0, 2, 142,
   0, 0, 2, 142, 0, 0, 2, 142, 0, 0, 2, 142, 0, 0, 2, 142, 83, 69, 71, 65, 32, 77, 69, 71,
   65, 32, 68, 82, 73, 86, 69, 32, 40, 67, 41, 71, 88, 84, 69, 83, 84, 32, 50, 48, 50, 54, 32, 32,
   80, 82, 73, 77, 69, 32, 83, 73, 69, 86, 69, 32, 84, 69, 83, 84, 32, 82, 79, 77, 32, 32, 32, 32,
   32, 32, 32, 32, 32, 32, 32, 32, 32, 32, 32, 32, 32, 32, 32, 32, 32, 32, 32, 32, 32, 32, 32, 32,
   80, 82, 73, 77, 69, 32, 83, 73, 69, 86, 69, 32, 84, 69, 83, 84, 32, 82, 79, 77, 32, 32, 32, 32,
   32, 32, 32, 32, 32, 32, 32, 32, 32, 32, 32, 32, 32, 32, 32, 32, 32, 32, 32, 32, 32, 32, 32, 32,
   71, 77, 32, 48, 48, 48, 48, 48, 48, 48, 48, 45, 48, 48, 0, 238, 74, 32, 32, 32, 32, 32, 32, 32,
   32, 32, 32, 32, 32, 32, 32, 32, 0, 0, 0, 0, 0, 0, 2, 143, 0, 255, 0, 0, 0, 255, 255, 255,
   32, 32, 32, 32, 32, 32, 32, 32, 32, 32, 32, 32, 32, 32, 32, 32, 32, 32, 32, 32, 32, 32, 32, 32,
   0, 0, 0, 0, 0, 0, 0, 0, 0, 0, 0, 0, 0, 0, 0, 0, 0, 0, 0, 0, 0, 0, 0, 0,
   0, 0, 0, 0, 0, 0, 0, 0, 0, 0, 0, 0, 0, 0, 0, 0, 74, 85, 69, 0, 0, 0, 0, 0,
   0, 0, 0, 0, 0, 0, 0, 0, 79, 249, 0, 255, 0, 0, 65, 249, 0, 255, 0, 0, 48, 60, 2, 87,
   66, 24, 81, 200, 255, 252, 65, 249, 0, 255, 0, 0, 16, 188, 0, 1, 17, 124, 0, 1, 0, 1, 48, 60,
   0, 2, 176, 124, 0, 25, 110, 36, 65, 249, 0, 255, 0, 0, 74, 48, 0, 0, 102, 20, 50, 0, 210, 64,
   178, 124, 2, 88, 108, 10, 17, 188, 0, 1, 16, 0, 210, 64, 96, 240, 82, 64, 96, 214, 65, 249, 0, 255,
   0, 0, 67, 249, 0, 255, 3, 0, 66, 65, 48, 60, 0, 2, 178, 124, 0, 100, 103, 20, 176, 124, 2, 88,
   108, 14, 74, 48, 0, 0, 102, 4, 50, 192, 82, 65, 82, 64, 96, 230, 51, 193, 0, 255, 5, 0, 51, 252,
   222, 173, 0, 255, 5, 2, 96, 254, 0, 0, 0, 0, 0, 0, 0, 0, 0, 0, 0, 0, 0, 0, 0, 0,
   0, 0, 0, 0, 0, 0, 0, 0, 0, 0, 0, 0, 0, 0, 0, 0, 0, 0, 0, 0, 0, 0, 0, 0,
   0, 0, 0, 0, 0, 0, 0, 0, 0, 0, 0, 0, 0, 0, 0, 0, 0, 0, 0, 0, 0, 0, 0, 0,
   0, 0, 0, 0, 0, 0, 0, 0, 0, 0, 0, 0, 0, 0, 0, 0, 0, 0, 0, 0, 0, 0, 0, 0,
   0, 0, 0, 0, 0, 0, 0, 0, 0, 0, 0, 0, 0, 0, 0, 0, 0, 0, 0, 0, 0, 0, 0, 0,
   0, 0, 0, 0, 0, 0, 0, 0, 0, 0, 0, 0, 0, 0, 0, 0, 0, 0, 0, 0, 0, 0, 0, 0,
   0, 0, 0, 0, 0, 0, 0, 0, 0, 0, 0, 0, 0, 0, 0, 0, 0, 0, 0, 0, 0, 0, 0, 0,
   0, 0, 0, 0, 0, 0, 0, 0, 0, 0, 0, 0, 0, 0, 0, 0, 0, 0, 0, 0, 0, 0, 0, 0,
   0, 0, 0, 0, 0, 0, 0, 0, 0, 0, 0, 0, 0, 0, 0, 0, 0, 0, 0, 0, 0, 0, 0, 0,
   0, 0, 0, 0, 0, 0, 0, 0, 0, 0, 0, 0, 0, 0, 0, 0, 0, 0, 0, 0, 0, 0, 0, 0,
   0, 0, 0, 0, 0, 0, 0, 0, 0, 0, 0, 0, 0, 0, 0, 0, 0, 0, 0, 0, 0, 0, 0, 0,
   0, 0, 0, 0, 0, 0, 0, 0, 0, 0, 0, 0, 0, 0, 0, 0, 0, 0, 0, 0, 0, 0, 0, 0,
   0, 0, 0, 0, 0, 0, 0, 0, 0, 0, 0, 0, 0, 0, 0, 0, 0, 0, 0, 0, 0, 0, 0, 0,
   0, 0, 0, 0, 0, 0, 0, 0, 0, 0, 0, 0, 0, 0, 0, 0, 0, 0, 0, 0, 0, 0, 0, 0,
   0, 0, 0, 0, 0, 0, 0, 0, 0, 0, 0, 0, 0, 0, 0, 0, 0, 0, 0, 0, 0, 0, 0, 0,
   0, 0, 0, 0, 0, 0, 0, 0, 0, 0, 0, 0, 0, 0, 0, 0]

section Theorems

set_option maxRecDepth 100000
set_option maxHeartbeats 4000000

/-- The single image `generate_rom` produces, evaluated to a flat literal. -/
theorem generate_rom_eq : generate_rom = romBytes := by decide

/-- The pc accumulated by the first pass of `assemble_68k` over a stream is
the sum of the declared sizes of its elements. -/
theorem pass1_pc_eq (l : List Inst) : ∀ (labels : String → Option Nat) (pc : Nat),
    (l.foldl pass1Step (labels, pc)).2 = pc + (l.map declaredSize).sum := by
  induction l with
  | nil => intro labels pc; simp
  | cons i rest ih =>
    intro labels pc
    cases i <;> simp [pass1Step, declaredSize, ih, Nat.add_assoc]

/-- Invariant of the second pass of `assemble_68k`: starting from a buffer
whose length equals the pc, a stream of size-accurate elements extends the
buffer to length `pc + Σ declared sizes` and never fails. -/
theorem pass2_foldl_inv (labels : String → Option Nat) :
    ∀ (l : List Inst) (code : List Nat) (pc : Nat),
      (∀ i ∈ l, sizesOk labels i) → code.length = pc →
      ∃ code2,
        l.foldl (pass2Step labels) (some (code, pc)) =
          some (code2, pc + (l.map declaredSize).sum) ∧
        code2.length = pc + (l.map declaredSize).sum := by
  intro l
  induction l with
  | nil => intro code pc _ hlen; exact ⟨code, by simp, by simpa using hlen⟩
  | cons i rest ih =>
    intro code pc h hlen
    have hi : sizesOk labels i := h i (by simp)
    have hrest : ∀ j ∈ rest, sizesOk labels j := fun j hj => h j (by simp [hj])
    cases i with
    | label n =>
      obtain ⟨c2, he, hl⟩ := ih code pc hrest hlen
      exact ⟨c2, by simpa [pass2Step, declaredSize] using he,
             by simpa [declaredSize] using hl⟩
    | raw bs =>
      obtain ⟨c2, he, hl⟩ := ih (code ++ bs) (pc + bs.length) hrest (by simp [hlen])
      refine ⟨c2, ?_, ?_⟩
      · simpa [pass2Step, declaredSize, Nat.add_assoc] using he
      · simpa [declaredSize, Nat.add_assoc] using hl
    | fixedTup bs size =>
      have hbs : bs.length = size := hi
      obtain ⟨c2, he, hl⟩ := ih (code ++ bs) (pc + size) hrest (by simp [hlen, hbs])
      refine ⟨c2, ?_, ?_⟩
      · simpa [pass2Step, declaredSize, Nat.add_assoc] using he
      · simpa [declaredSize, Nat.add_assoc] using hl
    | deferredTup f size =>
      obtain ⟨bs, hf, hbs⟩ := hi pc
      obtain ⟨c2, he, hl⟩ := ih (code ++ bs) (pc + size) hrest (by simp [hlen, hbs])
      refine ⟨c2, ?_, ?_⟩
      · simpa [pass2Step, hf, declaredSize, Nat.add_assoc] using he
      · simpa [declaredSize, Nat.add_assoc] using hl

/-- A deferred `branch_displacement` tuple is size-accurate under any label
table that binds its target: at every pc it succeeds and yields exactly its
declared two bytes. -/
theorem branch_displacement_sizesOk (labels : String → Option Nat)
    (target : String) (t : Nat) (h : labels target = some t) :
    sizesOk labels
      (Inst.deferredTup (fun pc l => branch_displacement pc l target) 2) := by
  intro pc
  refine ⟨word ((t : Int) - ((pc : Int) + 2)), ?_, rfl⟩
  simp [branch_displacement, h]

/-- Appending a label marker binds its name to the pc accumulated so far,
regardless of any earlier binding of the same name. -/
theorem pass1_append_label (l : List Inst) (n : String) :
    (pass1 (l ++ [Inst.label n])).1 n = some ((pass1 l).2) := by
  unfold pass1
  rw [List.foldl_append]
  simp [pass1Step]

/-- All the primes in the hard-coded list really are prime. -/
theorem primes_all_prime : ∀ p ∈ primes, Nat.Prime p :=
  @of_decide_eq_true _
    (@List.decidableBAll ℕ Nat.Prime (fun p => Nat.decidablePrime1 p) primes)
    (by rfl)

/-- Every prime below 541 occurs in the hard-coded list. -/
theorem primes_below_541_mem : ∀ n, n < 541 → Nat.Prime n → n ∈ primes :=
  @of_decide_eq_true _
    (@Nat.decidableBallLT 541 (fun n _ => Nat.Prime n → n ∈ primes)
      (fun n _ => @forall_prop_decidable _ _ (Nat.decidablePrime1 n) (fun _ => inferInstance)))
    (by rfl)

/-- C1: the 16-bit big-endian value stored in the header checksum slot
(bytes 0x18E-0x18F) of the produced image equals the low 16 bits of the sum
of the big-endian 16-bit words over exactly the code-plus-padding region
(byte offset 0x200 to the end), vector table and header excluded. -/
theorem rom_checksum_matches_word_sum :
    generate_rom.getD 0x18E 0 * 256 + generate_rom.getD 0x18F 0 =
      wordSum (generate_rom.drop 0x200) % 65536 := by
  rw [generate_rom_eq]; decide

/-- C2: for every 8-bit relative branch emitted by `generate_rom` (the
patched forward branches and the backward branches alike), the displacement
`target - (anchor + 2)` lies in `[-128, 127]` and its value mod 256 (the
two's-complement byte) is exactly the byte stored at `anchor + 1` in the
code buffer. -/
theorem branch_displacements_stored_and_in_range :
    ∀ p ∈ branchSites,
      -128 ≤ (p.2 : Int) - ((p.1 : Int) + 2) ∧
      (p.2 : Int) - ((p.1 : Int) + 2) ≤ 127 ∧
      buildProgram.program.getD (p.1 + 1) 0 =
        ((((p.2 : Int) - ((p.1 : Int) + 2)) % 256).toNat) := by
  decide

/-- Witness for C2 at the first branch site, the `bgt.s` to `collect`
(anchor 46, target 84, stored displacement byte 36). -/
theorem branch_displacements_stored_and_in_range_witness :
    ((46, 84) ∈ branchSites) ∧
    (-128 ≤ ((84 : Nat) : Int) - (((46 : Nat) : Int) + 2) ∧
     ((84 : Nat) : Int) - (((46 : Nat) : Int) + 2) ≤ 127 ∧
     buildProgram.program.getD (46 + 1) 0 =
       (((((84 : Nat) : Int) - (((46 : Nat) : Int) + 2)) % 256).toNat)) :=
  ⟨by decide, branch_displacements_stored_and_in_range (46, 84) (by decide)⟩

/-- C3 counterexample: the displacement 300 lies outside `[-128, 127]`,
yet the 8-bit branch encoder happily produces an encoding, silently
wrapping the byte to `300 mod 256 = 44`; no defect is raised and
construction is not aborted. -/
theorem bra8_out_of_range_silently_wraps :
    (127 : Int) < 300 ∧ BRA_8 300 = [0x60, 44] := by decide

/-- C3 amended: the 8-bit branch encoders perform no range check at all:
they are total, always produce a two-byte encoding, and are periodic with
period 256 in the displacement, i.e. an out-of-range displacement is
silently wrapped modulo 256 instead of raising a defect. -/
theorem branch_encoders_wrap_mod_256 (disp : Int) :
    BRA_8 (disp + 256) = BRA_8 disp ∧
    BNE_8 (disp + 256) = BNE_8 disp ∧
    BGT_8 (disp + 256) = BGT_8 disp ∧
    BGE_8 (disp + 256) = BGE_8 disp ∧
    BEQ_8 (disp + 256) = BEQ_8 disp ∧
    (BRA_8 disp).length = 2 := by
  have h : (disp + 256) % 256 = disp % 256 := by omega
  simp [BRA_8, BNE_8, BGT_8, BGE_8, BEQ_8, h]

/-- C4 counterexample: a stream that binds the label `L` at offset 0 and
again at offset 2 assembles without any defect, and the label table maps
`L` to the second offset. -/
theorem dup_label_silently_overwritten :
    (pass1 dupLabelStream).1 ("L") = some 2 ∧
    assemble_68k dupLabelStream = some NOP := ⟨rfl, rfl⟩

/-- C4 amended: binding an already-bound label name again silently
overwrites it: after appending a label marker for `n`, the table maps `n`
to the new offset whatever it was mapped to before, and no defect exists. -/
theorem rebinding_label_maps_to_new_offset (l : List Inst) (n : String) :
    (pass1 (l ++ [Inst.label n])).1 n = some ((pass1 l).2) :=
  pass1_append_label l n

/-- C5 counterexample: 70000 does not fit in 16 bits, yet `word` (and hence
the 16-bit immediate encoder) silently truncates it to
`70000 mod 2^16 = 0x1170` instead of raising an encoding defect. -/
theorem word_truncates_out_of_range_value :
    (65535 : Int) < 70000 ∧ MOVE_W_IMM_D0 70000 = [0x30, 0x3C, 0x11, 0x70] := by
  decide

/-- C5 amended: the field encoders perform no range check: `word` masks its
operand to the low 16 bits (it is total, periodic with period 2^16, and
always yields two bytes), so an unrepresentable operand is silently
truncated rather than rejected. -/
theorem word_wraps_mod_2_pow_16 (val : Int) :
    word (val + 65536) = word val ∧
    MOVE_W_IMM_D0 (val + 65536) = MOVE_W_IMM_D0 val ∧
    (word val).length = 2 := by
  have h : (val + 65536) % 65536 = val % 65536 := by omega
  simp [word, MOVE_W_IMM_D0, h]

/-- C6: the produced image is 1024 bytes long, a positive multiple of 512
no smaller than 512, and everything from the end of the code region
(0x200 + 144 bytes) to the end of the image is zero padding. -/
theorem rom_length_multiple_512_zero_padded :
    generate_rom.length = 1024 ∧
    generate_rom.length % 512 = 0 ∧
    512 ≤ generate_rom.length ∧
    generate_rom.drop (0x200 + buildProgram.program.length) =
      List.replicate (generate_rom.length - (0x200 + buildProgram.program.length)) 0 := by
  rw [generate_rom_eq]; decide

/-- C7: in the produced image, vector entry 0 holds the initial stack
pointer 0x00FFFFFE, entry 1 holds the initial program counter 0x200, and
entries 2 through 63 (bytes 0x08-0xFF, 4-byte big-endian each) all hold the
absolute address `0x200 + hang` of the program idle loop. -/
theorem rom_vectors_point_at_hang :
    generate_rom.take 4 = long 0x00FFFFFE ∧
    (generate_rom.drop 4).take 4 = long 0x00000200 ∧
    (generate_rom.drop 8).take 248 =
      (List.replicate 62 (long ((0x200 + buildProgram.hang : Nat) : Int))).flatten := by
  rw [generate_rom_eq]; decide

/-- C8: the hard-coded expected-primes list has exactly 100 entries, is
strictly increasing, consists of primes only, omits no prime below its last
entry, begins 2, 3, 5, 7, 11 and ends with 541. -/
theorem expected_primes_are_first_100_primes :
    primes.length = 100 ∧
    List.Pairwise (fun a b => a < b) primes ∧
    (∀ p ∈ primes, Nat.Prime p) ∧
    (∀ n, n < 541 → Nat.Prime n → n ∈ primes) ∧
    primes.take 5 = [2, 3, 5, 7, 11] ∧
    primes.getLast? = some 541 :=
  ⟨by decide, by decide, primes_all_prime, primes_below_541_mem, by decide, by decide⟩

/-- C9 counterexample: the sieve loop exit test compares against the
compile-time constant 25 (bytes `cmp.w #25,d0` at `sieve_loop`), and the
square of that bound, 625, exceeds the 600-byte sieve table size, contrary
to the claim that the bound's square does not exceed the table size. -/
theorem sieve_bound_square_exceeds_table :
    (buildProgram.program.drop buildProgram.sieve_loop).take 4 = CMP_W_IMM_D0 25 ∧
    600 < 25 * 25 := by decide

/-- C9 amended: the sieve main loop starts its candidate register at 2
(`move.w #2,d0` immediately before `sieve_loop`), and its exit test is
`cmp.w #25,d0` followed by `bgt.s collect`, so candidates 2..25 are
processed; the constant 25 is one more than `⌊√600⌋ = 24`, so its square
625 slightly exceeds the 600-byte table (harmless, since the extra pass
over 25 only revisits multiples already marked by 5). -/
theorem sieve_loop_structure :
    (buildProgram.program.drop (buildProgram.sieve_loop - 4)).take 4 = MOVE_W_IMM_D0 2 ∧
    (buildProgram.program.drop buildProgram.sieve_loop).take 6 =
      CMP_W_IMM_D0 25 ++
        BGT_8 ((buildProgram.collect : Int) - ((buildProgram.sieve_loop : Int) + 4) - 2) ∧
    24 * 24 ≤ 600 ∧ 600 < 25 * 25 := by decide

/-- C10 counterexample: in `cancelingStream` the first tuple declares size
2 but encodes 4 bytes, yet the subsequent label `L` is assigned offset 4,
which agrees with the emitted buffer length 4 (the second tuple's opposite
mismatch cancels the first): a declared-size mismatch does not make all
subsequent label offsets disagree with the buffer, and nothing detects it. -/
theorem canceling_mismatch_label_offset_agrees :
    (¬ sizesOk ((pass1 cancelingStream).1) (Inst.fixedTup [1, 2, 3, 4] 2)) ∧
    (pass1 cancelingStream).1 ("L") = some 4 ∧
    assemble_68k cancelingStream = some [1, 2, 3, 4] :=
  ⟨fun h => by simp [sizesOk] at h, rfl, rfl⟩

/-- C10 amended: for every instruction stream whose tuples all declare
their actual encoded byte length under the run's label table (as
`branch_displacement` does whenever its target is bound, see
`branch_displacement_sizesOk`), the second pass succeeds on every prefix
with a buffer whose length equals the first-pass pc of that prefix — so
every deferred callable is invoked with a pc equal to the true buffer
offset, and every label marker is bound to the true buffer offset of its
position; with inaccurate declared sizes the label offsets drift by the
accumulated discrepancy, which nothing detects and which can cancel. -/
theorem assemble_accurate_sizes_offsets_correct (instrs : List Inst)
    (labels : String → Option Nat) (h : ∀ i ∈ instrs, sizesOk labels i) :
    (∀ n : Nat, ∃ code,
      pass2 (instrs.take n) labels = some (code, (pass1 (instrs.take n)).2) ∧
      code.length = (pass1 (instrs.take n)).2) ∧
    (∀ (n : Nat) (name : String), instrs[n]? = some (Inst.label name) →
      (pass1 (instrs.take (n + 1))).1 name = some ((pass1 (instrs.take n)).2)) := by
  constructor
  · intro n
    have hsub : ∀ i ∈ instrs.take n, sizesOk labels i :=
      fun i hi => h i (List.take_subset n instrs hi)
    obtain ⟨c2, he, hl⟩ := pass2_foldl_inv labels (instrs.take n) [] 0 hsub rfl
    have hpc : (pass1 (instrs.take n)).2 = ((instrs.take n).map declaredSize).sum := by
      simpa using pass1_pc_eq (instrs.take n) (fun _ => none) 0
    refine ⟨c2, ?_, ?_⟩
    · rw [hpc]; simpa [pass2] using he
    · rw [hpc]; simpa using hl
  · intro n name hn
    have ht : instrs.take (n + 1) = instrs.take n ++ [Inst.label name] := by
      rw [List.take_succ, hn]; rfl
    rw [ht, pass1_append_label]

/-- Witness for C10 on the concrete stream `witStream`, whose forward
branch is a real `branch_displacement` tuple, run against the label table
its own first pass produces (exactly as `assemble_68k` does). -/
theorem assemble_accurate_sizes_offsets_correct_witness :
    (∀ n : Nat, ∃ code,
      pass2 (witStream.take n) ((pass1 witStream).1) =
        some (code, (pass1 (witStream.take n)).2) ∧
      code.length = (pass1 (witStream.take n)).2) ∧
    (∀ (n : Nat) (name : String), witStream[n]? = some (Inst.label name) →
      (pass1 (witStream.take (n + 1))).1 name = some ((pass1 (witStream.take n)).2)) :=
  assemble_accurate_sizes_offsets_correct witStream ((pass1 witStream).1) (by
    intro i hi
    have hfwd : (pass1 witStream).1 ("fwd") = some 4 := rfl
    simp only [witStream, List.mem_cons, List.not_mem_nil, or_false] at hi
    rcases hi with rfl | rfl | rfl | rfl
    · trivial
    · exact branch_displacement_sizesOk ((pass1 witStream).1) ("fwd") 4 hfwd
    · trivial
    · trivial)

end Theorems

end GenPrimeRom
